import Mathlib

set_option maxHeartbeats 1000000

/-!
Shallow embedding of the transcoder-service core of the youtube-clone-platform
repository: the quality-ladder selector (`getQualityLevels` in
internal/transcoder/ffmpeg.go), the job dispatcher (`handleVideoUpload` in
internal/service/transcoder.go), the per-job pipeline (`processVideo`), the
health gate (`RunHealthCheck`), and the Kafka consumption loop
(`KafkaConsumer.Start`).  Go `int` is modelled as `Int`, Go maps keyed by
video id as association lists / lists of keys, fallible calls as `Except` or
`Option`, and external side effects (filesystem, object store, broker) as
explicit outcome parameters.
-/

/-- One entry of the static quality catalog (`QualityLevel` in ffmpeg.go). -/
structure QualityLevel where
  name : String
  width : Int
  height : Int
  bitrate : Int
  audioBitrate : Int
  deriving DecidableEq, Repr

/-- Catalog entry `{Name: "4k", Width: 3840, Height: 2160, Bitrate: 15000, AudioBitrate: 192}`. -/
def q2160 : QualityLevel := ⟨"4k", 3840, 2160, 15000, 192⟩

/-- Catalog entry `{Name: "1080p", Width: 1920, Height: 1080, Bitrate: 5000, AudioBitrate: 192}`. -/
def q1080 : QualityLevel := ⟨"1080p", 1920, 1080, 5000, 192⟩

/-- Catalog entry `{Name: "720p", Width: 1280, Height: 720, Bitrate: 2800, AudioBitrate: 128}`. -/
def q720 : QualityLevel := ⟨"720p", 1280, 720, 2800, 128⟩

/-- Catalog entry `{Name: "480p", Width: 854, Height: 480, Bitrate: 1400, AudioBitrate: 128}`. -/
def q480 : QualityLevel := ⟨"480p", 854, 480, 1400, 128⟩

/-- Catalog entry `{Name: "360p", Width: 640, Height: 360, Bitrate: 800, AudioBitrate: 96}`. -/
def q360 : QualityLevel := ⟨"360p", 640, 360, 800, 96⟩

/-- Catalog entry `{Name: "240p", Width: 426, Height: 240, Bitrate: 400, AudioBitrate: 64}`. -/
def q240 : QualityLevel := ⟨"240p", 426, 240, 400, 64⟩

/-- `allLevels` from `getQualityLevels`: the full static catalog, descending. -/
def allLevels : List QualityLevel := [q2160, q1080, q720, q480, q360, q240]

/-- The filter condition of `getQualityLevels`:
`level.Width <= inputWidth && level.Height <= inputHeight`. -/
def fitsInput (inputWidth inputHeight : Int) (l : QualityLevel) : Bool :=
  decide (l.width ≤ inputWidth) && decide (l.height ≤ inputHeight)

/-- The retained set before the floor fallback: the `levels` slice built by the
filter loop of `getQualityLevels`. -/
def filteredLevels (inputWidth inputHeight : Int) : List QualityLevel :=
  allLevels.filter (fitsInput inputWidth inputHeight)

/-- `getQualityLevels(inputWidth, inputHeight)` from ffmpeg.go: filter the
catalog by the input dimensions; if fewer than 2 levels remain, append
`allLevels[5]` (240p) when the input is below 240p dimensions, then append
`allLevels[4]` (360p) when the input is below 360p dimensions. -/
def getQualityLevels (inputWidth inputHeight : Int) : List QualityLevel :=
  let levels := filteredLevels inputWidth inputHeight
  if levels.length < 2 then
    let withFloor240 :=
      if inputWidth < 426 ∨ inputHeight < 240 then levels ++ [q240] else levels
    let withFloor360 :=
      if inputWidth < 640 ∨ inputHeight < 360 then withFloor240 ++ [q360] else withFloor240
    withFloor360
  else
    levels

/-- A list of profiles is ordered descending by resolution: every later entry
has width and height no larger than every earlier one. -/
def resolutionDescending (l : List QualityLevel) : Prop :=
  l.Pairwise (fun a b => b.width ≤ a.width ∧ b.height ≤ a.height)

instance (l : List QualityLevel) : Decidable (resolutionDescending l) :=
  inferInstanceAs (Decidable (l.Pairwise fun a b : QualityLevel => b.width ≤ a.width ∧ b.height ≤ a.height))

/-! ## Job dispatcher (internal/service/transcoder.go)

`TranscoderService.activeJobs` is a Go `map[string]context.CancelFunc`.  We
model the table by its key list (`activeJobs`) and record cancellation-handle
invocations in `cancelledJobs`: an id is appended there exactly when the
`CancelFunc` stored for it is called. -/

/-- The dispatcher state: the keys of the `activeJobs` map, plus the trace of
video ids whose stored cancellation handle has been invoked. -/
structure DispatcherState where
  activeJobs : List String
  cancelledJobs : List String
  deriving DecidableEq, Repr

/-- The state built by `NewTranscoderService`: an empty `activeJobs` map and no
cancellation handle ever invoked. -/
def initialState : DispatcherState := ⟨[], []⟩

/-- `handleVideoUpload`: reject a duplicate `videoId`, then reject when
`len(s.activeJobs) >= s.maxJobs`, otherwise register the id (with its cancel
handle) and schedule the pipeline goroutine. -/
def handleVideoUpload (maxJobs : Nat) (s : DispatcherState) (videoId : String) :
    Except String DispatcherState :=
  if videoId ∈ s.activeJobs then
    .error ("job already exists for video " ++ videoId)
  else if maxJobs ≤ s.activeJobs.length then
    .error "maximum number of concurrent jobs reached"
  else
    .ok { s with activeJobs := videoId :: s.activeJobs }

/-- The deferred cleanup of the pipeline goroutine in `handleVideoUpload`: it
runs `delete(s.activeJobs, event.VideoID)` and nothing else — in particular it
does not call the stored `context.CancelFunc`, so `cancelledJobs` is
unchanged. -/
def jobDone (s : DispatcherState) (videoId : String) : DispatcherState :=
  { s with activeJobs := s.activeJobs.erase videoId }

/-- `TranscoderService.Stop`: invoke every stored cancellation handle (the
entries themselves are left for the terminating goroutines to delete). -/
def stopService (s : DispatcherState) : DispatcherState :=
  { s with cancelledJobs := s.cancelledJobs ++ s.activeJobs }

/-- The states the dispatcher can reach from `NewTranscoderService` under
successful admissions, pipeline terminations and shutdown. -/
inductive Reachable (maxJobs : Nat) : DispatcherState → Prop
  | init : Reachable maxJobs initialState
  | accept (s t : DispatcherState) (videoId : String) :
      Reachable maxJobs s → handleVideoUpload maxJobs s videoId = .ok t →
      Reachable maxJobs t
  | done (s : DispatcherState) (videoId : String) :
      Reachable maxJobs s → Reachable maxJobs (jobDone s videoId)
  | stop (s : DispatcherState) :
      Reachable maxJobs s → Reachable maxJobs (stopService s)

/-! ## Per-job pipeline (`processVideo` in internal/service/transcoder.go)

The pipeline runs a fixed sequence of effectful stages; the outcome of each external call
 is an input to the model.  The deferred `os.RemoveAll(videoDir)` is
registered right after the working directory is created and runs on every
later return path; removal of a local temp directory is modelled as always
succeeding (the code discards its error). -/

/-- The fields of `events.VideoUploadEvent` that `processVideo` reads. -/
structure VideoUploadEvent where
  videoID : String
  userID : String
  title : String
  contentType : String
  width : Int
  height : Int
  deriving DecidableEq, Repr

/-- `events.TranscodingCompleteEvent` as built by `processVideo`. -/
structure TranscodingCompleteEvent where
  videoID : String
  userID : String
  title : String
  hlsPath : String
  mp4Path : String
  thumbnailPath : String
  status : String
  completedAt : String
  deriving DecidableEq, Repr

/-- Outcome of every external call made by one run of `processVideo`, in
program order.  `Bool` stages either succeed or fail; the two uploads that
return a path on success are `Option String`. -/
structure StageOutcomes where
  mkdirVideoDir : Bool
  download : Bool
  mkdirHLS : Bool
  mkdirMP4 : Bool
  transcodeHLS : Bool
  transcodeMP4 : Bool
  thumbnail : Bool
  uploadHLS : Option String
  uploadMP4 : Bool
  uploadThumbnail : Option String
  publish : Bool
  deriving DecidableEq, Repr

/-- The extension chosen from `event.ContentType` (".mp4" default). -/
def fileExtensionFor (contentType : String) : String :=
  if contentType = "video/webm" then ".webm"
  else if contentType = "video/quicktime" then ".mov"
  else ".mp4"

/-- What one run of `processVideo` produced: its return value, the completion
events actually handed to the producer, whether the working directory of the job
still exists afterwards, and the stages that were entered (by name, in
order). -/
structure PipelineResult where
  result : Except String Unit
  published : List TranscodingCompleteEvent
  videoDirExists : Bool
  executed : List String
  deriving Repr

/-- The completion event `processVideo` constructs on full success. -/
def mkCompletionEvent (event : VideoUploadEvent) (hlsPath mp4Root thumbnailPath now : String) :
    TranscodingCompleteEvent :=
  { videoID := event.videoID
    userID := event.userID
    title := event.title
    hlsPath := hlsPath
    mp4Path := mp4Root ++ "/" ++ event.videoID
    thumbnailPath := thumbnailPath
    status := "completed"
    completedAt := now }

/-- `processVideo`: create the working directory, then run download, output
directory creation, the two encodes, thumbnail generation, the three uploads
and the completion-event publish strictly in order, returning the wrapped error of the
first failing stage; the deferred `os.RemoveAll` removes the working
directory on every exit after its creation. -/
def processVideo (env : StageOutcomes) (mp4Root now : String) (event : VideoUploadEvent) :
    PipelineResult :=
  if env.mkdirVideoDir = false then
    { result := .error "failed to create video directory", published := [],
      videoDirExists := false, executed := ["mkdirVideoDir"] }
  else
    -- from here on `defer os.RemoveAll(videoDir)` is registered:
    -- every return passes through `cleanup`, which removes the directory
    let cleanup := fun (r : Except String Unit) (pub : List TranscodingCompleteEvent)
        (ex : List String) =>
      ({ result := r, published := pub, videoDirExists := false,
         executed := "mkdirVideoDir" :: ex } : PipelineResult)
    if env.download = false then
      cleanup (.error "failed to download video") [] ["download"]
    else if env.mkdirHLS = false then
      cleanup (.error "failed to create HLS directory") [] ["download", "mkdirHLS"]
    else if env.mkdirMP4 = false then
      cleanup (.error "failed to create MP4 directory") [] ["download", "mkdirHLS", "mkdirMP4"]
    else if env.transcodeHLS = false then
      cleanup (.error "failed to transcode to HLS") []
        ["download", "mkdirHLS", "mkdirMP4", "transcodeHLS"]
    else if env.transcodeMP4 = false then
      cleanup (.error "failed to transcode to MP4") []
        ["download", "mkdirHLS", "mkdirMP4", "transcodeHLS", "transcodeMP4"]
    else if env.thumbnail = false then
      cleanup (.error "failed to generate thumbnail") []
        ["download", "mkdirHLS", "mkdirMP4", "transcodeHLS", "transcodeMP4", "thumbnail"]
    else
      match env.uploadHLS with
      | none =>
        cleanup (.error "failed to upload HLS files") []
          ["download", "mkdirHLS", "mkdirMP4", "transcodeHLS", "transcodeMP4", "thumbnail",
           "uploadHLS"]
      | some hlsPath =>
        if env.uploadMP4 = false then
          cleanup (.error "failed to upload MP4 files") []
            ["download", "mkdirHLS", "mkdirMP4", "transcodeHLS", "transcodeMP4", "thumbnail",
             "uploadHLS", "uploadMP4"]
        else
          match env.uploadThumbnail with
          | none =>
            cleanup (.error "failed to upload thumbnail") []
              ["download", "mkdirHLS", "mkdirMP4", "transcodeHLS", "transcodeMP4", "thumbnail",
               "uploadHLS", "uploadMP4", "uploadThumbnail"]
          | some thumbnailPath =>
            if env.publish = false then
              cleanup (.error "failed to publish completion event") []
                ["download", "mkdirHLS", "mkdirMP4", "transcodeHLS", "transcodeMP4", "thumbnail",
                 "uploadHLS", "uploadMP4", "uploadThumbnail", "publish"]
            else
              cleanup (.ok ())
                [mkCompletionEvent event hlsPath mp4Root thumbnailPath now]
                ["download", "mkdirHLS", "mkdirMP4", "transcodeHLS", "transcodeMP4", "thumbnail",
                 "uploadHLS", "uploadMP4", "uploadThumbnail", "publish"]

/-- All eleven stages succeed. -/
def allStagesOk (env : StageOutcomes) : Bool :=
  env.mkdirVideoDir && env.download && env.mkdirHLS && env.mkdirMP4 &&
    env.transcodeHLS && env.transcodeMP4 && env.thumbnail &&
    env.uploadHLS.isSome && env.uploadMP4 && env.uploadThumbnail.isSome && env.publish

/-- The stages of the pipeline in program order. -/
def stageNames : List String :=
  ["mkdirVideoDir", "download", "mkdirHLS", "mkdirMP4", "transcodeHLS", "transcodeMP4",
   "thumbnail", "uploadHLS", "uploadMP4", "uploadThumbnail", "publish"]

/-- The outcome of a named stage in a given environment. -/
def stageOk (env : StageOutcomes) (stage : String) : Bool :=
  if stage = "mkdirVideoDir" then env.mkdirVideoDir
  else if stage = "download" then env.download
  else if stage = "mkdirHLS" then env.mkdirHLS
  else if stage = "mkdirMP4" then env.mkdirMP4
  else if stage = "transcodeHLS" then env.transcodeHLS
  else if stage = "transcodeMP4" then env.transcodeMP4
  else if stage = "thumbnail" then env.thumbnail
  else if stage = "uploadHLS" then env.uploadHLS.isSome
  else if stage = "uploadMP4" then env.uploadMP4
  else if stage = "uploadThumbnail" then env.uploadThumbnail.isSome
  else env.publish

/-! ## Health gate (`HealthHandler.RunHealthCheck`)

The two dependency probes are inputs: `none` for success, `some e` for a probe
that failed with message `e`.  The Kafka probe models `checkKafka`, which is
broker dial plus idempotent `CreateTopics`. -/

/-- `HealthStatus` with the dependency map as an association list in insertion
order. -/
structure HealthStatus where
  status : String
  dependencies : List (String × String)
  timestamp : String
  version : String
  deriving DecidableEq, Repr

/-- `RunHealthCheck`: start from "ok", run the MinIO probe then the Kafka
probe (connection plus create-if-absent topic assertion), record each outcome
under its dependency name, and downgrade the overall status to "degraded" on
any failure. -/
def runHealthCheck (minioErr kafkaErr : Option String) (now : String) : HealthStatus :=
  let minioStatus := match minioErr with
    | none => "ok"
    | some e => "error: " ++ e
  let statusAfterMinio := match minioErr with
    | none => "ok"
    | some _ => "degraded"
  let kafkaStatus := match kafkaErr with
    | none => "ok"
    | some e => "error: " ++ e
  let statusAfterKafka := match kafkaErr with
    | none => statusAfterMinio
    | some _ => "degraded"
  { status := statusAfterKafka
    dependencies := [("minio", minioStatus), ("kafka", kafkaStatus)]
    timestamp := now
    version := "1.0.0" }

/-! ## Event-consumption loop (`KafkaConsumer.Start`)

One iteration of the `for { select { case <-ctx.Done(): ... default: ... } }`
loop either observes the context done and returns `ctx.Err()`, or handles one
message.  A run is modelled by the finite trace of per-message outcomes seen
before the context is done, plus the error of the context. -/

/-- What the message of one loop iteration amounted to: a read error from the
broker, a JSON decode error, a handler (admission) error, or a successfully
handled event. -/
inductive MsgStep where
  | readError (e : String)
  | decodeError (raw : String)
  | handlerError (event : VideoUploadEvent) (e : String)
  | handled (event : VideoUploadEvent)
  deriving DecidableEq, Repr

/-- `KafkaConsumer.Start` over a trace: every per-message failure is logged
and skipped (`continue`), a handled event is recorded, and when the context is
done (the trace is exhausted) the loop returns `ctx.Err()`.  The result is
the list of successfully handled events and the returned error. -/
def consumerStart : List MsgStep → String → List VideoUploadEvent × String
  | [], ctxErr => ([], ctxErr)
  | .readError _ :: rest, ctxErr => consumerStart rest ctxErr
  | .decodeError _ :: rest, ctxErr => consumerStart rest ctxErr
  | .handlerError _ _ :: rest, ctxErr => consumerStart rest ctxErr
  | .handled event :: rest, ctxErr =>
    (event :: (consumerStart rest ctxErr).1, (consumerStart rest ctxErr).2)


/-! ## Quality-ladder lemmas -/

theorem mem_filteredLevels {w h : Int} {l : QualityLevel} :
    l ∈ filteredLevels w h ↔ l ∈ allLevels ∧ l.width ≤ w ∧ l.height ≤ h := by
  simp [filteredLevels, fitsInput, List.mem_filter, and_assoc]

theorem q240_mem_filtered {w h : Int} (hw : 426 ≤ w) (hh : 240 ≤ h) :
    q240 ∈ filteredLevels w h := by
  rw [mem_filteredLevels]
  exact ⟨by decide, hw, hh⟩

theorem q360_mem_filtered {w h : Int} (hw : 640 ≤ w) (hh : 360 ≤ h) :
    q360 ∈ filteredLevels w h := by
  rw [mem_filteredLevels]
  exact ⟨by decide, hw, hh⟩

theorem filteredLevels_eq_nil {w h : Int} (hc : w < 426 ∨ h < 240) :
    filteredLevels w h = [] := by
  rw [List.eq_nil_iff_forall_not_mem]
  intro l hl
  rw [mem_filteredLevels] at hl
  obtain ⟨hmem, hw, hh⟩ := hl
  have hbound : 426 ≤ l.width ∧ 240 ≤ l.height := by
    simp [allLevels] at hmem
    rcases hmem with h1 | h1 | h1 | h1 | h1 | h1 <;> subst h1 <;> decide
  omega

theorem filteredLevels_eq_single {w h : Int}
    (hlen : (filteredLevels w h).length < 2) (hw : 426 ≤ w) (hh : 240 ≤ h) :
    filteredLevels w h = [q240] := by
  have hm : q240 ∈ filteredLevels w h := q240_mem_filtered hw hh
  match hL : filteredLevels w h with
  | [] => rw [hL] at hm; simp at hm
  | [a] =>
    rw [hL] at hm
    simp at hm
    rw [hm]
  | a :: b :: t =>
    exfalso
    rw [hL] at hlen
    simp at hlen
    omega

theorem getQualityLevels_of_lt_two {w h : Int}
    (hlen : (filteredLevels w h).length < 2) :
    getQualityLevels w h = [q240, q360] := by
  unfold getQualityLevels
  rw [if_pos hlen]
  by_cases h240 : 426 ≤ w ∧ 240 ≤ h
  · have hL : filteredLevels w h = [q240] := filteredLevels_eq_single hlen h240.1 h240.2
    have h360 : w < 640 ∨ h < 360 := by
      by_contra hc
      push_neg at hc
      have hm : q360 ∈ filteredLevels w h := q360_mem_filtered hc.1 hc.2
      rw [hL] at hm
      simp [q360, q240] at hm
    rw [hL]
    simp only [if_neg (show ¬(w < 426 ∨ h < 240) by omega), if_pos h360]
    rfl
  · have hc1 : w < 426 ∨ h < 240 := by omega
    have hc2 : w < 640 ∨ h < 360 := by omega
    rw [filteredLevels_eq_nil hc1]
    simp only [if_pos hc1, if_pos hc2]
    rfl

theorem getQualityLevels_of_ge_two {w h : Int}
    (hlen : 2 ≤ (filteredLevels w h).length) :
    getQualityLevels w h = filteredLevels w h := by
  unfold getQualityLevels
  rw [if_neg (by omega)]

theorem filteredLevels_descending (w h : Int) :
    resolutionDescending (filteredLevels w h) := by
  have hall : resolutionDescending allLevels := by decide
  exact List.Pairwise.sublist (List.filter_sublist _) hall

/-- C4: for every input dimension pair, the quality ladder returned by
`getQualityLevels` has at least two profiles, and whenever fewer than two
catalog profiles fit the input, the returned ladder contains both the 360p
and the 240p profile. -/
theorem getQualityLevels_at_least_two (w h : Int) :
    2 ≤ (getQualityLevels w h).length ∧
      ((filteredLevels w h).length < 2 →
        q360 ∈ getQualityLevels w h ∧ q240 ∈ getQualityLevels w h) := by
  by_cases hlen : (filteredLevels w h).length < 2
  · rw [getQualityLevels_of_lt_two hlen]
    exact ⟨by decide, fun _ => ⟨by decide, by decide⟩⟩
  · push_neg at hlen
    rw [getQualityLevels_of_ge_two hlen]
    exact ⟨hlen, fun hlt => absurd hlt (by omega)⟩

theorem getQualityLevels_at_least_two_witness :
    (filteredLevels 100 100).length < 2 ∧
      (q360 ∈ getQualityLevels 100 100 ∧ q240 ∈ getQualityLevels 100 100) ∧
      2 ≤ (getQualityLevels 100 100).length :=
  ⟨by decide, (getQualityLevels_at_least_two 100 100).2 (by decide),
    (getQualityLevels_at_least_two 100 100).1⟩

/-- C5 counterexample: at input (100, 100) the returned ladder is
`[240p, 360p]`, which is not ordered descending by resolution — the floor
fallback appends 240p before 360p. -/
theorem getQualityLevels_not_descending_at_small_input :
    getQualityLevels 100 100 = [q240, q360] ∧
      ¬ resolutionDescending (getQualityLevels 100 100) := by
  constructor
  · decide
  · decide

/-- C5 amended: the ladder is ordered descending by resolution whenever at
least two catalog profiles fit the input (it then equals the filtered
catalog); when fewer than two fit, the floor-fallback ladder is exactly
`[240p, 360p]`, i.e. ascending. -/
theorem getQualityLevels_order (w h : Int) :
    (2 ≤ (filteredLevels w h).length →
      getQualityLevels w h = filteredLevels w h ∧
        resolutionDescending (getQualityLevels w h)) ∧
    ((filteredLevels w h).length < 2 → getQualityLevels w h = [q240, q360]) := by
  constructor
  · intro hlen
    have he := getQualityLevels_of_ge_two hlen
    exact ⟨he, he ▸ filteredLevels_descending w h⟩
  · exact getQualityLevels_of_lt_two

theorem getQualityLevels_order_witness :
    (2 ≤ (filteredLevels 1920 1080).length ∧
      getQualityLevels 1920 1080 = filteredLevels 1920 1080 ∧
      resolutionDescending (getQualityLevels 1920 1080)) ∧
    ((filteredLevels 100 100).length < 2 ∧ getQualityLevels 100 100 = [q240, q360]) :=
  ⟨⟨by decide, (getQualityLevels_order 1920 1080).1 (by decide)⟩,
   by decide, (getQualityLevels_order 100 100).2 (by decide)⟩

/-- C8: the retained-by-the-filter set is monotone in the input dimensions —
for componentwise-smaller input it is a subset of the one for larger input. -/
theorem filteredLevels_monotone (w1 h1 w2 h2 : Int) (hw : w1 ≤ w2) (hh : h1 ≤ h2) :
    filteredLevels w1 h1 ⊆ filteredLevels w2 h2 := by
  intro l hl
  rw [mem_filteredLevels] at hl ⊢
  exact ⟨hl.1, hl.2.1.trans hw, hl.2.2.trans hh⟩

theorem filteredLevels_monotone_witness :
    (100 : Int) ≤ 1920 ∧ (100 : Int) ≤ 1080 ∧
      filteredLevels 100 100 ⊆ filteredLevels 1920 1080 :=
  ⟨by decide, by decide,
    filteredLevels_monotone 100 100 1920 1080 (by decide) (by decide)⟩

/-! ## Dispatcher lemmas -/

theorem handleVideoUpload_ok_inv {maxJobs : Nat} {s t : DispatcherState} {videoId : String}
    (hok : handleVideoUpload maxJobs s videoId = .ok t) :
    videoId ∉ s.activeJobs ∧ s.activeJobs.length < maxJobs ∧
      t = { s with activeJobs := videoId :: s.activeJobs } := by
  unfold handleVideoUpload at hok
  by_cases h1 : videoId ∈ s.activeJobs
  · rw [if_pos h1] at hok
    simp at hok
  · rw [if_neg h1] at hok
    by_cases h2 : maxJobs ≤ s.activeJobs.length
    · rw [if_pos h2] at hok
      simp at hok
    · rw [if_neg h2] at hok
      cases hok
      exact ⟨h1, by omega, rfl⟩

theorem reachable_nodup {maxJobs : Nat} {s : DispatcherState}
    (h : Reachable maxJobs s) : s.activeJobs.Nodup := by
  induction h with
  | init => exact List.nodup_nil
  | accept s t videoId hr hok ih =>
    obtain ⟨hmem, hlen, ht⟩ := handleVideoUpload_ok_inv hok
    rw [ht]
    exact List.nodup_cons.mpr ⟨hmem, ih⟩
  | done s videoId hr ih =>
    simpa [jobDone] using ih.erase videoId
  | stop s hr ih =>
    simpa [stopService] using ih

theorem reachable_length_le {maxJobs : Nat} {s : DispatcherState}
    (h : Reachable maxJobs s) : s.activeJobs.length ≤ maxJobs := by
  induction h with
  | init => simp [initialState]
  | accept s t videoId hr hok ih =>
    obtain ⟨hmem, hlen, ht⟩ := handleVideoUpload_ok_inv hok
    rw [ht]
    simpa using hlen
  | done s videoId hr ih =>
    have hle : (s.activeJobs.erase videoId).length ≤ s.activeJobs.length :=
      (List.erase_sublist videoId s.activeJobs).length_le
    simpa [jobDone] using hle.trans ih
  | stop s hr ih =>
    simpa [stopService] using ih

/-- C1: a duplicate `videoId` is rejected with the "job already exists" error
(leaving the table as it was and starting no pipeline, since only the `.ok`
branch changes state and spawns the goroutine); of two submissions of the same
id the second is always rejected; and in every reachable state the active-job
table holds at most one entry per `videoId`. -/
theorem handleVideoUpload_no_duplicate (maxJobs : Nat) (s : DispatcherState) (videoId : String) :
    (videoId ∈ s.activeJobs →
      handleVideoUpload maxJobs s videoId =
        .error ("job already exists for video " ++ videoId)) ∧
    (∀ t, handleVideoUpload maxJobs s videoId = .ok t →
      handleVideoUpload maxJobs t videoId =
        .error ("job already exists for video " ++ videoId)) ∧
    (Reachable maxJobs s → s.activeJobs.Nodup) := by
  refine ⟨fun hmem => ?_, fun t hok => ?_, reachable_nodup⟩
  · unfold handleVideoUpload
    rw [if_pos hmem]
  · have hmem : videoId ∈ t.activeJobs := by
      obtain ⟨_, _, ht⟩ := handleVideoUpload_ok_inv hok
      rw [ht]
      exact List.mem_cons_self _ _
    unfold handleVideoUpload
    rw [if_pos hmem]

theorem handleVideoUpload_no_duplicate_witness :
    handleVideoUpload 2 ⟨["v"], []⟩ "v" = .error "job already exists for video v" ∧
    handleVideoUpload 2 ⟨["w", "v"], []⟩ "w" = .error "job already exists for video w" ∧
    (⟨["w", "v"], []⟩ : DispatcherState).activeJobs.Nodup :=
  ⟨(handleVideoUpload_no_duplicate 2 ⟨["v"], []⟩ "v").1 (by decide),
   (handleVideoUpload_no_duplicate 2 ⟨["v"], []⟩ "w").2.1 ⟨["w", "v"], []⟩ rfl,
   (handleVideoUpload_no_duplicate 2 ⟨["w", "v"], []⟩ "w").2.2
     (Reachable.accept _ _ "w" (Reachable.accept _ _ "v" Reachable.init rfl) rfl)⟩

/-- C2 counterexample: in the reachable state holding job "v" with ceiling 1,
the active count equals the ceiling, yet submitting "v" again returns the
duplicate error — not the "capacity exceeded" error the claim requires for
every at-capacity upload event. -/
theorem handleVideoUpload_capacity_duplicate_overlap :
    Reachable 1 ⟨["v"], []⟩ ∧
    1 ≤ (⟨["v"], []⟩ : DispatcherState).activeJobs.length ∧
    handleVideoUpload 1 ⟨["v"], []⟩ "v" = .error "job already exists for video v" ∧
    handleVideoUpload 1 ⟨["v"], []⟩ "v" ≠ .error "maximum number of concurrent jobs reached" :=
  ⟨Reachable.accept _ _ "v" Reachable.init rfl, by decide, rfl, by simp [handleVideoUpload]⟩

/-- C2 amended: an at-capacity upload event is rejected with the "capacity
exceeded" error provided its `videoId` is not already active (the duplicate
check runs first and wins on overlap); no at-capacity event is ever accepted;
and in every reachable state the active-job count is at most `maxJobs`. -/
theorem handleVideoUpload_capacity (maxJobs : Nat) (s : DispatcherState) (videoId : String) :
    (maxJobs ≤ s.activeJobs.length → videoId ∉ s.activeJobs →
      handleVideoUpload maxJobs s videoId = .error "maximum number of concurrent jobs reached") ∧
    (maxJobs ≤ s.activeJobs.length → ∀ t, handleVideoUpload maxJobs s videoId ≠ .ok t) ∧
    (Reachable maxJobs s → s.activeJobs.length ≤ maxJobs) := by
  refine ⟨fun hcap hmem => ?_, fun hcap t hok => ?_, reachable_length_le⟩
  · unfold handleVideoUpload
    rw [if_neg hmem, if_pos hcap]
  · obtain ⟨_, hlen, _⟩ := handleVideoUpload_ok_inv hok
    omega

theorem handleVideoUpload_capacity_witness :
    1 ≤ (⟨["v"], []⟩ : DispatcherState).activeJobs.length ∧
    "w" ∉ (⟨["v"], []⟩ : DispatcherState).activeJobs ∧
    handleVideoUpload 1 ⟨["v"], []⟩ "w" = .error "maximum number of concurrent jobs reached" ∧
    (⟨["v"], []⟩ : DispatcherState).activeJobs.length ≤ 1 :=
  ⟨by decide, by decide,
   (handleVideoUpload_capacity 1 ⟨["v"], []⟩ "w").1 (by decide) (by decide),
   (handleVideoUpload_capacity 1 ⟨["v"], []⟩ "w").2.2
     (Reachable.accept _ _ "v" Reachable.init rfl)⟩

/-- C3 counterexample: in the reachable state holding job "v", pipeline
termination (`jobDone`) removes the entry but does not invoke the stored
cancellation handle — "v" is not in the invoked-handles trace afterwards. -/
theorem jobDone_does_not_cancel :
    Reachable 1 ⟨["v"], []⟩ ∧
    "v" ∈ (⟨["v"], []⟩ : DispatcherState).activeJobs ∧
    "v" ∉ (jobDone ⟨["v"], []⟩ "v").cancelledJobs :=
  ⟨Reachable.accept _ _ "v" Reachable.init rfl, by decide, by decide⟩

/-- C3 amended: on pipeline termination the dispatcher removes the `videoId`
entry from the active-job table, but it does not invoke the stored
cancellation handle — the set of invoked handles is unchanged (handles are
invoked only by `Stop`; the per-job deadline context expires on its own). -/
theorem jobDone_removes_entry (maxJobs : Nat) (s : DispatcherState) (videoId : String)
    (h : Reachable maxJobs s) :
    videoId ∉ (jobDone s videoId).activeJobs ∧
    (jobDone s videoId).cancelledJobs = s.cancelledJobs := by
  refine ⟨fun hmem => ?_, rfl⟩
  have hnd : s.activeJobs.Nodup := reachable_nodup h
  simp only [jobDone] at hmem
  rw [List.Nodup.mem_erase_iff hnd] at hmem
  exact hmem.1 rfl

theorem jobDone_removes_entry_witness :
    "v" ∉ (jobDone ⟨["v"], []⟩ "v").activeJobs ∧
    (jobDone ⟨["v"], []⟩ "v").cancelledJobs = (⟨["v"], []⟩ : DispatcherState).cancelledJobs :=
  jobDone_removes_entry 1 ⟨["v"], []⟩ "v" (Reachable.accept _ _ "v" Reachable.init rfl)

/-! ## Pipeline theorems -/

/-- C7: after `processVideo` returns — success, any stage error, or
cancellation surfacing as a stage error — the working directory of the job no
longer exists: the deferred removal runs on every exit path after its
creation, and on a failed creation it was never made. -/
theorem processVideo_cleanup (env : StageOutcomes) (mp4Root now : String)
    (event : VideoUploadEvent) :
    (processVideo env mp4Root now event).videoDirExists = false := by
  obtain ⟨m, d, mh, mm, th, tm, tn, uh, um, ut, pb⟩ := env
  cases m <;> cases d <;> cases mh <;> cases mm <;> cases th <;> cases tm <;> cases tn <;>
    cases uh <;> cases um <;> cases ut <;> cases pb <;> rfl

/-- C6: exactly one completion event — status "completed", carrying the `videoId`
of the job — is published iff every pipeline stage succeeds; on the first
failing stage the remaining stages are not entered, an error is returned and
nothing is published. -/
theorem processVideo_publishes_iff (env : StageOutcomes) (mp4Root now : String)
    (event : VideoUploadEvent) :
    (allStagesOk env = true →
      (processVideo env mp4Root now event).result = .ok () ∧
      ∃ hlsPath thumbPath,
        (processVideo env mp4Root now event).published =
          [mkCompletionEvent event hlsPath mp4Root thumbPath now]) ∧
    (allStagesOk env = false →
      (∃ msg, (processVideo env mp4Root now event).result = .error msg) ∧
      (processVideo env mp4Root now event).published = []) ∧
    (∀ e ∈ (processVideo env mp4Root now event).published,
      e.status = "completed" ∧ e.videoID = event.videoID) ∧
    (processVideo env mp4Root now event).executed =
      stageNames.take ((stageNames.takeWhile (stageOk env)).length + 1) := by
  obtain ⟨m, d, mh, mm, th, tm, tn, uh, um, ut, pb⟩ := env
  cases m <;> cases d <;> cases mh <;> cases mm <;> cases th <;> cases tm <;> cases tn <;>
    cases uh <;> cases um <;> cases ut <;> cases pb <;>
    simp [processVideo, allStagesOk, stageNames, stageOk, mkCompletionEvent,
      List.takeWhile_cons]

theorem processVideo_publishes_iff_witness :
    ((processVideo ⟨true, true, true, true, true, true, true, some "hls/v", true, some "th/v", true⟩
        "mp4" "now" ⟨"v", "u", "t", "video/mp4", 100, 100⟩).result = .ok () ∧
      ∃ hlsPath thumbPath,
        (processVideo ⟨true, true, true, true, true, true, true, some "hls/v", true, some "th/v", true⟩
            "mp4" "now" ⟨"v", "u", "t", "video/mp4", 100, 100⟩).published =
          [mkCompletionEvent ⟨"v", "u", "t", "video/mp4", 100, 100⟩ hlsPath "mp4" thumbPath "now"]) ∧
    ((∃ msg,
        (processVideo ⟨true, false, true, true, true, true, true, some "hls/v", true, some "th/v", true⟩
            "mp4" "now" ⟨"v", "u", "t", "video/mp4", 100, 100⟩).result = .error msg) ∧
      (processVideo ⟨true, false, true, true, true, true, true, some "hls/v", true, some "th/v", true⟩
          "mp4" "now" ⟨"v", "u", "t", "video/mp4", 100, 100⟩).published = []) :=
  ⟨(processVideo_publishes_iff
      ⟨true, true, true, true, true, true, true, some "hls/v", true, some "th/v", true⟩
      "mp4" "now" ⟨"v", "u", "t", "video/mp4", 100, 100⟩).1 rfl,
   (processVideo_publishes_iff
      ⟨true, false, true, true, true, true, true, some "hls/v", true, some "th/v", true⟩
      "mp4" "now" ⟨"v", "u", "t", "video/mp4", 100, 100⟩).2.1 rfl⟩

/-! ## Health-gate theorem -/

/-- C9: `RunHealthCheck` reports "ok" iff both the object-store probe and the
broker probe (with its idempotent topic creation) succeed, and "degraded"
otherwise; the per-dependency map always has a "minio" and a "kafka" entry
recording the outcome of each probe. -/
theorem runHealthCheck_status (minioErr kafkaErr : Option String) (now : String) :
    ((runHealthCheck minioErr kafkaErr now).status = "ok" ↔
      minioErr = none ∧ kafkaErr = none) ∧
    (¬(minioErr = none ∧ kafkaErr = none) →
      (runHealthCheck minioErr kafkaErr now).status = "degraded") ∧
    (minioErr = none →
      (runHealthCheck minioErr kafkaErr now).dependencies.lookup "minio" = some "ok") ∧
    (∀ e, minioErr = some e →
      (runHealthCheck minioErr kafkaErr now).dependencies.lookup "minio" =
        some ("error: " ++ e)) ∧
    (kafkaErr = none →
      (runHealthCheck minioErr kafkaErr now).dependencies.lookup "kafka" = some "ok") ∧
    (∀ e, kafkaErr = some e →
      (runHealthCheck minioErr kafkaErr now).dependencies.lookup "kafka" =
        some ("error: " ++ e)) := by
  cases minioErr <;> cases kafkaErr <;>
    simp [runHealthCheck, List.lookup]

theorem runHealthCheck_status_witness :
    ((runHealthCheck none none "now").status = "ok" ↔
      (none : Option String) = none ∧ (none : Option String) = none) ∧
    (runHealthCheck (some "down") none "now").status = "degraded" ∧
    (runHealthCheck (some "down") none "now").dependencies.lookup "minio" =
      some ("error: " ++ "down") ∧
    (runHealthCheck (some "down") none "now").dependencies.lookup "kafka" = some "ok" :=
  ⟨(runHealthCheck_status none none "now").1,
   (runHealthCheck_status (some "down") none "now").2.1 (by simp),
   (runHealthCheck_status (some "down") none "now").2.2.2.1 "down" rfl,
   (runHealthCheck_status (some "down") none "now").2.2.2.2.1 rfl⟩

/-! ## Consumer-loop theorem -/

/-- C10: the consumption loop never terminates on a per-message failure — a
read error, a decode error, or a handler error is skipped and the loop goes
on with the next message: the handled events are exactly the successful ones
of the whole trace, and the loop returns precisely the error of the context once
the context is done. -/
theorem consumerStart_resilient (steps : List MsgStep) (ctxErr : String) :
    (consumerStart steps ctxErr).2 = ctxErr ∧
    (consumerStart steps ctxErr).1 =
      steps.filterMap (fun s => match s with | .handled ev => some ev | _ => none) ∧
    (∀ e rest, consumerStart (.readError e :: rest) ctxErr = consumerStart rest ctxErr) ∧
    (∀ raw rest, consumerStart (.decodeError raw :: rest) ctxErr = consumerStart rest ctxErr) ∧
    (∀ ev e rest,
      consumerStart (.handlerError ev e :: rest) ctxErr = consumerStart rest ctxErr) := by
  refine ⟨?_, ?_, fun e rest => rfl, fun raw rest => rfl, fun ev e rest => rfl⟩
  · induction steps with
    | nil => rfl
    | cons s rest ih => cases s <;> simpa [consumerStart] using ih
  · induction steps with
    | nil => rfl
    | cons s rest ih => cases s <;> simp [consumerStart, ih]
